import Mathlib

/-!
Shallow embedding of the stroke capture / history / replay engine of
`react-canvas-doodle` (`src/index.tsx`, helpers in `src/utils.ts`).

JS numbers are modelled as rationals (all arithmetic used by the engine is
`+ - * /`).  The three drawing surfaces are modelled abstractly: a canvas 2d
context carries a list of painted commands; `clearRect` resets it to `[]`,
stroking a path appends one command, `drawImage` from the temp canvas appends
a copy of the temp canvas's current content.
-/

namespace Doodle

/-- `Point` from `src/index.tsx`: `{x, y, type?}`; `type = 'erase'` tags an
erasing stroke's points.  The rescale branch of `paintData` rebuilds points
with only `x` and `y`, which the default `none` models. -/
structure Point where
  x : ℚ
  y : ℚ
  type : Option String := none
  deriving Repr, DecidableEq

/-- `Line` from `src/index.tsx`: a committed stroke. -/
structure Line where
  brushRadius : ℚ
  brushColor : String
  points : List Point
  deriving Repr, DecidableEq

/-- Abstract painted content of a canvas: a smoothed stroked path, or a
bitmap copy of another canvas's content (`drawImage`). -/
inductive PaintCmd where
  | path (segs : List (Point × Point)) (color : String) (width : ℚ)
  | image (cmds : List PaintCmd)

/-- The slice of 2d-context state the engine writes: the painted content plus
the style fields `drawPoints` assigns.  `gco` is `globalCompositeOperation`. -/
structure Ctx2D where
  content : List PaintCmd := []
  strokeStyle : String := ""
  lineWidth : ℚ := 0
  gco : String := "source-over"

/-- The component's mutable refs that the claims are about:
`pointsRef`, `linesRef`, the temp (scratch) and drawing (committed) canvases,
`isDrawingRef`, `isPressingRef`, and a count of `onChange` firings. -/
structure EngineState where
  points : List Point := []
  lines : List Line := []
  temp : Ctx2D := {}
  drawing : Ctx2D := {}
  isDrawing : Bool := false
  isPressing : Bool := false
  changeCount : Nat := 0

/-- The props the modelled callbacks read: `brushColor`, `brushRadius`,
`loadTimeOffset`. -/
structure Config where
  brushColor : String := "#444"
  brushRadius : ℚ := 10
  loadTimeOffset : ℚ := 5

/-- `pointBtw` from `src/utils.ts`. -/
def pointBtw (p1 p2 : Point) (proportion : ℚ) : Point :=
  { x := p1.x + (p2.x - p1.x) * proportion,
    y := p1.y + (p2.y - p1.y) * proportion }

/-- The quadratic segments `drawPoints` strokes: for each consecutive pair the
earlier point is the control point and their midpoint the end anchor. -/
def smoothSegs : List Point → List (Point × Point)
  | p1 :: p2 :: rest => (p1, pointBtw p1 p2 (1/2)) :: smoothSegs (p2 :: rest)
  | _ => []

/-- `drawPoints` from `src/index.tsx` (lines 238-289).  It assigns the style
fields, clears the temp canvas (`clearRect`), sets the line width to
`brushRadius * 2`, and only then checks `points[0]`/`points[1]`: with fewer
than 2 points it returns (the temp canvas already cleared); otherwise it
strokes the smoothed path on the temp canvas.  The `ctx.drawing.moveTo` call
only moves the path cursor and paints nothing, so it has no modelled effect
on the committed content. -/
def drawPoints (points : List Point) (temp drawing : Ctx2D)
    (brushColor : String) (brushRadius : ℚ) : Ctx2D × Ctx2D :=
  let temp1 := { temp with
    strokeStyle := if brushColor = "erase" then "#dbb7bb" else brushColor }
  let drawing1 := { drawing with
    gco := if brushColor = "erase" then "destination-out" else "source-over" }
  let temp2 := { temp1 with content := [] }
  let temp3 := { temp2 with lineWidth := brushRadius * 2 }
  match points with
  | _ :: _ :: _ =>
      ({ temp3 with
          content := [PaintCmd.path (smoothSegs points) temp3.strokeStyle
            temp3.lineWidth] },
        drawing1)
  | _ => (temp3, drawing1)

/-- JS `a || b` for an optional string argument: `undefined` and `""` are
falsy. -/
def jsOrStr : Option String → String → String
  | some s, d => if s = "" then d else s
  | none, d => d

/-- JS `a || b` for an optional number argument: `undefined` and `0` are
falsy. -/
def jsOrNum : Option ℚ → ℚ → ℚ
  | some r, d => if r = 0 then d else r
  | none, d => d

/-- The optional `{brushColor, brushRadius}` argument of `saveLine`. -/
structure BrushOpts where
  brushColor : Option String := none
  brushRadius : Option ℚ := none

/-- `saveLine` from `src/index.tsx` (lines 291-329).  Under 2 points it
returns with nothing changed.  Otherwise: if the first buffered point is
tagged `erase` the requested color is overridden with `'erase'`; the new line
is appended to `linesRef`; the points buffer is reset; the temp canvas is
copied onto the drawing canvas (`drawImage`) and then cleared; `onChange`
fires. -/
def saveLine (opts : BrushOpts) (cfg : Config) (st : EngineState) :
    EngineState :=
  if st.points.length < 2 then st
  else
    let bColor : Option String :=
      if (st.points.head?.map Point.type) = some (some "erase") then
        some "erase"
      else opts.brushColor
    let newLine : Line :=
      { points := st.points,
        brushColor := jsOrStr bColor cfg.brushColor,
        brushRadius := jsOrNum opts.brushRadius cfg.brushRadius }
    { st with
      lines := st.lines ++ [newLine],
      points := [],
      drawing := { st.drawing with
        content := st.drawing.content ++ [PaintCmd.image st.temp.content] },
      temp := { st.temp with content := [] },
      changeCount := st.changeCount + 1 }

/-- `clear` from `src/index.tsx` (lines 377-393): empties `linesRef`, clears
both the drawing and temp canvases, fires `onChange`.  It performs no
`clearTimeout`: pending replay timers are untouched. -/
def clearE (st : EngineState) : EngineState :=
  { st with
    lines := [],
    drawing := { st.drawing with content := [] },
    temp := { st.temp with content := [] },
    changeCount := st.changeCount + 1 }

/-- JS `arr.slice(0, -1)`: all elements but the last (empty stays empty). -/
def jsSliceDropLast {α : Type} (l : List α) : List α :=
  l.take (l.length - 1)

/-- A timer callback scheduled by the paced branch of
`simulateDrawingLines`: either an incremental redraw of the first `k` points
of a line (`points.slice(0, i + 1)` with `k = i + 1`), or the closure that
writes the line's points into `pointsRef` and calls `saveLine`.  The closure
captures the line's own data; `lineIdx` records which history entry it came
from. -/
inductive ReplayEvent where
  | draw (lineIdx : Nat) (line : Line) (k : Nat)
  | save (lineIdx : Nat) (line : Line)
  deriving Repr, DecidableEq

/-- Index of the history entry a replay callback belongs to. -/
def eventIdx : ReplayEvent → Nat
  | .draw i _ _ => i
  | .save i _ => i

/-- The `setTimeout` delay at which a line's `saveLine` closure is scheduled,
given the running offset `t0` at which the line's scheduling starts: the loop
has advanced `curTime` by `gap` once per point after the first, and the save
adds one more `gap`. -/
def lineEnd (gap : ℚ) (line : Line) (t0 : ℚ) : ℚ :=
  t0 + gap * ((line.points.length - 1 : ℕ) : ℚ) + gap

/-- The timed callbacks one line contributes in the paced branch of
`simulateDrawingLines` (lines 356-371): for `i = 1 .. points.length - 1` a
redraw of the first `i + 1` points at `t0 + gap * i` (here `i = k + 1` with
`k` ranging over `range (points.length - 1)`), then the save closure one
`gap` later. -/
def lineEvents (gap : ℚ) (idx : Nat) (line : Line) (t0 : ℚ) :
    List (ℚ × ReplayEvent) :=
  ((List.range (line.points.length - 1)).map
    (fun (k : ℕ) =>
      (t0 + gap * ((k : ℚ) + 1), ReplayEvent.draw idx line (k + 2))))
  ++ [(lineEnd gap line t0, ReplayEvent.save idx line)]

/-- The full timer schedule of the paced branch of `simulateDrawingLines`:
`curTime` accumulates across lines and is never reset. -/
def simSchedule (gap : ℚ) : Nat → ℚ → List Line → List (ℚ × ReplayEvent)
  | _, _, [] => []
  | idx, t0, l :: rest =>
      lineEvents gap idx l t0 ++
      simSchedule gap (idx + 1) (lineEnd gap l t0) rest

/-- One step of the immediate branch of `simulateDrawingLines` (lines
342-353): draw all the line's points at once, set `pointsRef` to them, and
`saveLine` with the line's own brush props. -/
def simImmediateStep (cfg : Config) (st : EngineState) (line : Line) :
    EngineState :=
  let pair := drawPoints line.points st.temp st.drawing line.brushColor
    line.brushRadius
  saveLine { brushColor := some line.brushColor,
             brushRadius := some line.brushRadius } cfg
    { st with temp := pair.1, drawing := pair.2, points := line.points }

/-- `simulateDrawingLines` from `src/index.tsx` (lines 332-375).  In
immediate mode every line is drawn and saved synchronously and no timers are
scheduled; otherwise nothing happens synchronously and the timer schedule is
returned (`timeoutGap` is `loadTimeOffset`). -/
def simulateDrawingLines (cfg : Config) (lines : List Line)
    (immediate : Bool) (st : EngineState) :
    EngineState × List (ℚ × ReplayEvent) :=
  if immediate then (lines.foldl (simImmediateStep cfg) st, [])
  else (st, simSchedule cfg.loadTimeOffset 0 0 lines)

/-- Running one pending replay timer callback against the engine state
(the closures of lines 358-363 and 367-371). -/
def runEvent (cfg : Config) (st : EngineState) : ReplayEvent → EngineState
  | .draw _ line k =>
      let pair := drawPoints (line.points.take k) st.temp st.drawing
        line.brushColor line.brushRadius
      { st with temp := pair.1, drawing := pair.2 }
  | .save _ line =>
      saveLine { brushColor := some line.brushColor,
                 brushRadius := some line.brushRadius } cfg
        { st with points := line.points }

/-- `undo` from `src/index.tsx` (lines 533-549): drop the last line
(`slice(0, -1)`), clear, immediately replay the remainder, fire `onChange`. -/
def undo (cfg : Config) (st : EngineState) : EngineState :=
  let prev := jsSliceDropLast st.lines
  let st1 := clearE st
  let st2 := (simulateDrawingLines cfg prev true st1).1
  { st2 with changeCount := st2.changeCount + 1 }

/-- `handleDrawLeave` from `src/index.tsx` (lines 526-531): it only resets
the two flags.  It neither calls `saveLine` nor resets `pointsRef`, and it
touches no canvas. -/
def handleDrawLeave (st : EngineState) : EngineState :=
  { st with isDrawing := false, isPressing := false }

/-- The dynamically-typed `lines` field of a replay payload: `paintData`
guards with `!lines || typeof lines.push !== 'function'`, so only a real
array passes. -/
inductive JsLines where
  | undef
  | nonSeq
  | arr (l : List Line)
  deriving Repr, DecidableEq

/-- Whether the payload's `lines` passes `paintData`'s array guard. -/
def JsLines.isSeq : JsLines → Bool
  | .arr _ => true
  | _ => false

/-- The externally loadable snapshot format (`CanvasData` in the source),
with `lines` kept dynamically typed. -/
structure CanvasDataJs where
  lines : JsLines
  width : ℚ
  height : ℚ

/-- The rescale mapping of `paintData`'s else-branch (lines 407-421):
`scaleX = canvasWidth / width`, `scaleY = canvasHeight / height` where
`width`/`height` are the component props (the target size) and
`canvasWidth`/`canvasHeight` the payload's recorded size; every point is
rebuilt as `{x: p.x * scaleX, y: p.y * scaleY}` (dropping `type`) and the
radius is scaled by the mean of the two factors. -/
def rescaleLines (propW propH cw ch : ℚ) (lines : List Line) : List Line :=
  let scaleX := cw / propW
  let scaleY := ch / propH
  let scaleAvg := (scaleX + scaleY) / 2
  lines.map (fun line =>
    { line with
      points := line.points.map (fun p => { x := p.x * scaleX,
                                            y := p.y * scaleY }),
      brushRadius := line.brushRadius * scaleAvg })

/-- Engine state together with the pending `setTimeout` callbacks the
environment holds.  The source never stores or cancels timer ids, so the
engine operations leave `pending` untouched. -/
structure SysState where
  engine : EngineState := {}
  pending : List (ℚ × ReplayEvent) := []

/-- `paintData` from `src/index.tsx` (lines 395-427).  A payload whose
`lines` is missing or not an array returns before anything happens — in
particular before `clear()`.  Otherwise the surfaces are cleared and the
(possibly rescaled) lines are handed to paced `simulateDrawingLines`, whose
timers join the pending set; nothing cancels previously pending timers. -/
def paintData (cfg : Config) (propW propH : ℚ) (data : CanvasDataJs)
    (sys : SysState) : SysState :=
  match data.lines with
  | JsLines.arr lines =>
      let sys1 : SysState := { sys with engine := clearE sys.engine }
      if propW = data.width ∧ propH = data.height then
        { sys1 with pending := sys1.pending ++
            (simulateDrawingLines cfg lines false sys1.engine).2 }
      else
        { sys1 with pending := sys1.pending ++
            (simulateDrawingLines cfg
              (rescaleLines propW propH data.width data.height lines)
              false sys1.engine).2 }
  | _ => sys

/-- The imperative `clear` at the system level: the engine's `clear` runs but
no pending timer is cancelled (the source keeps no timer ids at all). -/
def clearSys (sys : SysState) : SysState :=
  { sys with engine := clearE sys.engine }

/-- Let every pending timer fire, in schedule order. -/
def fireAll (cfg : Config) (sys : SysState) : SysState :=
  { engine := sys.pending.foldl (fun st te => runEvent cfg st te.2) sys.engine,
    pending := [] }

/-- Modelled from the spec (section 4.5 rescaling policy), for comparison
with the source's `rescaleLines`: scale x by `targetWidth / canvasWidth`,
y by `targetHeight / canvasHeight`, the radius by the mean of those. -/
def rescaleLinesSpec (propW propH cw ch : ℚ) (lines : List Line) :
    List Line :=
  let scaleX := propW / cw
  let scaleY := propH / ch
  let scaleAvg := (scaleX + scaleY) / 2
  lines.map (fun line =>
    { line with
      points := line.points.map (fun p => { x := p.x * scaleX,
                                            y := p.y * scaleY }),
      brushRadius := line.brushRadius * scaleAvg })

/-- A one-point stroke recorded at 400x400, used to exhibit the rescale
direction. -/
def histLine1 : Line :=
  { brushRadius := 10, brushColor := "#000", points := [⟨200, 100, none⟩] }

/-- A two-point stroke used for the paced-replay cancellation scenario. -/
def replayLine : Line :=
  { brushRadius := 10, brushColor := "#111",
    points := [⟨0, 0, none⟩, ⟨1, 1, none⟩] }

/-- A replay payload holding `replayLine`, recorded at the target size so the
identity branch of `paintData` runs. -/
def replayData : CanvasDataJs :=
  { lines := JsLines.arr [replayLine], width := 400, height := 400 }

/-- The spec's ordering scenario: stroke A with 3 points. -/
def lineA : Line :=
  { brushRadius := 10, brushColor := "#000",
    points := [⟨10, 10, none⟩, ⟨20, 10, none⟩, ⟨20, 20, none⟩] }

/-- The spec's ordering scenario: stroke B with 2 points. -/
def lineB : Line :=
  { brushRadius := 10, brushColor := "#000",
    points := [⟨0, 0, none⟩, ⟨5, 5, none⟩] }

/-- A replay payload whose `lines` field is absent. -/
def badData : CanvasDataJs :=
  { lines := JsLines.undef, width := 400, height := 400 }

/-- A system state whose committed surface holds prior content. -/
def inkedSys : SysState :=
  { engine := { drawing := { content := [PaintCmd.image []] } } }

end Doodle

namespace Doodle

/-- C3: `saveLine` with fewer than 2 buffered points changes nothing (no
stroke is produced and the history is untouched); with at least 2 points it
appends exactly one stroke to the history and resets the live buffer to
empty. -/
theorem saveLine_commit_threshold (opts : BrushOpts) (cfg : Config)
    (st : EngineState) :
    (st.points.length < 2 → saveLine opts cfg st = st) ∧
    (2 ≤ st.points.length →
      (∃ s : Line, (saveLine opts cfg st).lines = st.lines ++ [s]) ∧
      (saveLine opts cfg st).points = []) := by
  constructor
  · intro h
    simp [saveLine, h]
  · intro h
    have h2 : ¬ st.points.length < 2 := by omega
    rw [saveLine, if_neg h2]
    exact ⟨⟨_, rfl⟩, rfl⟩

/-- Witness for C3 at a 1-point buffer and a 2-point buffer. -/
theorem saveLine_commit_threshold_witness :
    (saveLine {} {} { points := [⟨1, 1, none⟩] } =
      { points := [⟨1, 1, none⟩] }) ∧
    ((∃ s : Line, (saveLine {} {}
        { points := [⟨1, 1, none⟩, ⟨2, 2, none⟩] }).lines = [] ++ [s]) ∧
      (saveLine {} {} { points := [⟨1, 1, none⟩, ⟨2, 2, none⟩] }).points
        = []) :=
  ⟨(saveLine_commit_threshold {} {} { points := [⟨1, 1, none⟩] }).1
      (by simp),
    (saveLine_commit_threshold {} {}
        { points := [⟨1, 1, none⟩, ⟨2, 2, none⟩] }).2 (by simp)⟩

/-- C4: appending a stroke to the history and then taking the drop-last step
of `undo` (`slice(0, -1)`) returns the original strokes list. -/
theorem undo_dropLast_append (H : List Line) (S : Line) :
    jsSliceDropLast (H ++ [S]) = H := by
  have h : (H ++ [S]).length - 1 = H.length := by simp
  rw [jsSliceDropLast, h]
  exact List.take_left H [S]

/-- C6 counterexample: after `handleDrawLeave` the live buffer still holds
its points, so the buffer is not reset to empty as claimed. -/
theorem handleDrawLeave_keeps_buffer_cex :
    (handleDrawLeave { points := [⟨3, 4, none⟩] }).points ≠ [] := by
  simp [handleDrawLeave]

/-- C6 amended: `handleDrawLeave` clears the drawing and pressing flags and
modifies nothing else — in particular no surface changes, and the live point
buffer is left as it was rather than being reset. -/
theorem handleDrawLeave_flags_only (st : EngineState) :
    (handleDrawLeave st).points = st.points ∧
    (handleDrawLeave st).lines = st.lines ∧
    (handleDrawLeave st).temp = st.temp ∧
    (handleDrawLeave st).drawing = st.drawing ∧
    (handleDrawLeave st).isDrawing = false ∧
    (handleDrawLeave st).isPressing = false :=
  ⟨rfl, rfl, rfl, rfl, rfl, rfl⟩

/-- C7: when the first buffered point is tagged `erase` and the buffer can
commit (at least 2 points), the stroke `saveLine` appends has color
`'erase'`, whatever color the caller requested. -/
theorem saveLine_erase_overrides (opts : BrushOpts) (cfg : Config)
    (st : EngineState) (h2 : 2 ≤ st.points.length)
    (he : st.points.head?.map Point.type = some (some "erase")) :
    (List.getLast? ((saveLine opts cfg st).lines)).map Line.brushColor
      = some "erase" := by
  have h : ¬ st.points.length < 2 := by omega
  simp [saveLine, h, he, jsOrStr]

/-- Witness for C7: a 2-point erase-tagged buffer committed with an explicit
non-erase color still yields an `'erase'` stroke. -/
theorem saveLine_erase_overrides_witness :
    (List.getLast? ((saveLine { brushColor := some "#123" } {}
        { points := [⟨0, 0, some "erase"⟩, ⟨1, 1, none⟩] }).lines)).map
      Line.brushColor = some "erase" :=
  saveLine_erase_overrides { brushColor := some "#123" } {}
    { points := [⟨0, 0, some "erase"⟩, ⟨1, 1, none⟩] } (by simp) (by rfl)

/-- C9 counterexample: with an empty input, `drawPoints` still clears the
scratch canvas, so a scratch surface with prior content is not left exactly
as it was. -/
theorem drawPoints_clears_scratch_cex :
    (drawPoints [] { content := [PaintCmd.path [] "#000" 1] } {} "#000"
        10).1.content
      ≠ ({ content := [PaintCmd.path [] "#000" 1] } : Ctx2D).content := by
  simp [drawPoints]

/-- C9 amended: with fewer than 2 points `drawPoints` paints nothing — the
committed surface's content is unchanged — but the scratch surface is
cleared (its content becomes empty) before the early return. -/
theorem drawPoints_short_input (points : List Point) (temp drawing : Ctx2D)
    (c : String) (r : ℚ) (h : points.length < 2) :
    (drawPoints points temp drawing c r).1.content = [] ∧
    (drawPoints points temp drawing c r).2.content = drawing.content := by
  match points, h with
  | [], _ => exact ⟨rfl, rfl⟩
  | [p], _ => exact ⟨rfl, rfl⟩

/-- Witness for C9 (amended) on a nonempty scratch surface and empty input. -/
theorem drawPoints_short_input_witness :
    (drawPoints [] { content := [PaintCmd.path [] "#000" 1] } {} "#000"
        10).1.content = [] ∧
    (drawPoints [] { content := [PaintCmd.path [] "#000" 1] } {} "#000"
        10).2.content = ({} : Ctx2D).content :=
  drawPoints_short_input [] { content := [PaintCmd.path [] "#000" 1] } {}
    "#000" 10 (by simp)

/-- C10: the rescale branch of `paintData` keeps each stroke's color and the
order of its points, and rebuilds every point with only the scaled x and y,
so every point-level tag (including an erase tag) is dropped. -/
theorem rescaleLines_drop_tags (pw ph cw ch : ℚ) (ls : List Line) (i : ℕ) :
    ((rescaleLines pw ph cw ch ls)[i]?).map Line.brushColor
      = (ls[i]?).map Line.brushColor ∧
    ((rescaleLines pw ph cw ch ls)[i]?).map Line.points
      = (ls[i]?).map (fun l => l.points.map (fun p =>
          { x := p.x * (cw / pw), y := p.y * (ch / ph), type := none })) := by
  cases h : ls[i]? with
  | none => simp [rescaleLines, List.getElem?_map, h]
  | some l => simp [rescaleLines, List.getElem?_map, h]

/-- C5 counterexample: a replay payload with a missing `lines` field leaves a
nonempty committed surface untouched — the surfaces are not cleared as
claimed, because `paintData` returns before its `clear()` call. -/
theorem paintData_malformed_not_cleared_cex :
    (paintData {} 400 400 badData inkedSys).engine.drawing.content ≠ [] := by
  simp [paintData, badData, inkedSys]

/-- C5 amended: on a payload whose `lines` is missing or not a sequence,
`paintData` is a complete no-op: no stroke is drawn or appended and the
engine state — surfaces included — is returned unchanged (they are not
cleared). -/
theorem paintData_malformed_noop (cfg : Config) (pw ph : ℚ)
    (data : CanvasDataJs) (sys : SysState)
    (h : data.lines.isSeq = false) :
    paintData cfg pw ph data sys = sys := by
  cases hd : data.lines with
  | undef => simp [paintData, hd]
  | nonSeq => simp [paintData, hd]
  | arr l => rw [hd] at h; simp [JsLines.isSeq] at h

/-- Witness for C5 (amended) at a payload with `lines` absent. -/
theorem paintData_malformed_noop_witness :
    paintData {} 400 400 badData inkedSys = inkedSys :=
  paintData_malformed_noop {} 400 400 badData inkedSys rfl

/-- C1: the rescale branch multiplies x by `canvasWidth / width`, i.e. by
recorded-over-target — the inverse of the claimed `target / recorded` — and
likewise for y and the width mean.  At a history recorded at 400x400 with a
point `(200, 100)` of radius 10 replayed at 800x400, the code yields
`(100, 100)` and radius `15/2`, while the claimed policy (modelled by
`rescaleLinesSpec`) yields `(400, 100)` and radius 15. -/
theorem rescaleLines_direction_inverted :
    rescaleLines 800 400 400 400 [histLine1]
      = [{ brushRadius := 15/2, brushColor := "#000",
           points := [⟨100, 100, none⟩] }] ∧
    rescaleLinesSpec 800 400 400 400 [histLine1]
      = [{ brushRadius := 15, brushColor := "#000",
           points := [⟨400, 100, none⟩] }] := by
  constructor <;>
    · simp [rescaleLines, rescaleLinesSpec, histLine1]
      norm_num

/-- C2: no timer cancellation exists.  After a paced replay of one 2-point
stroke is scheduled and `clear` then runs, the history is empty and the two
replay timers are still pending; letting them fire repaints and re-appends
the stroke to the history after the clear — stale callbacks from the
superseded replay are not invalidated. -/
theorem clear_does_not_cancel_pending_replay :
    (clearSys (paintData {} 400 400 replayData {})).engine.lines = [] ∧
    (clearSys (paintData {} 400 400 replayData {})).pending ≠ [] ∧
    (fireAll {} (clearSys (paintData {} 400 400 replayData {}))
      ).engine.lines = [replayLine] := by
  refine ⟨rfl, ?_, ?_⟩
  · simp [paintData, replayData, clearSys, simulateDrawingLines, simSchedule,
      lineEvents, lineEnd, replayLine, List.range_succ]
  · norm_num [paintData, replayData, clearSys, clearE, fireAll,
      simulateDrawingLines, simSchedule, lineEvents, lineEnd, replayLine,
      List.range_succ, runEvent, saveLine, drawPoints, jsOrStr, jsOrNum]
    simp

/-- Every callback one line schedules carries that line's index. -/
theorem mem_lineEvents_idx {gap : ℚ} {idx : ℕ} {l : Line} {t0 : ℚ}
    {te : ℚ × ReplayEvent} (h : te ∈ lineEvents gap idx l t0) :
    eventIdx te.2 = idx := by
  rcases List.mem_append.1 h with h | h
  · obtain ⟨k, -, rfl⟩ := List.mem_map.1 h
    rfl
  · rw [List.mem_singleton] at h
    subst h
    rfl

/-- The save closure of a line is scheduled exactly at `lineEnd`. -/
theorem save_time_of_mem {gap : ℚ} {idx i : ℕ} {l li : Line} {t0 t : ℚ}
    (h : (t, ReplayEvent.save i li) ∈ lineEvents gap idx l t0) :
    t = lineEnd gap l t0 := by
  rcases List.mem_append.1 h with h | h
  · obtain ⟨k, -, heq⟩ := List.mem_map.1 h
    simp at heq
  · rw [List.mem_singleton] at h
    exact congrArg Prod.fst h

/-- Every callback one line schedules is delayed at least one `gap` past the
offset at which the line's scheduling starts. -/
theorem mem_lineEvents_time_lb {gap : ℚ} (hg : 0 ≤ gap) {idx : ℕ} {l : Line}
    {t0 : ℚ} {te : ℚ × ReplayEvent} (h : te ∈ lineEvents gap idx l t0) :
    t0 + gap ≤ te.1 := by
  rcases List.mem_append.1 h with h | h
  · obtain ⟨k, -, rfl⟩ := List.mem_map.1 h
    have hk : (0 : ℚ) ≤ (k : ℚ) := Nat.cast_nonneg k
    have := mul_nonneg hg hk
    simp only []
    nlinarith
  · rw [List.mem_singleton] at h
    subst h
    have := mul_nonneg hg
      (Nat.cast_nonneg (α := ℚ) (l.points.length - 1))
    simp only [lineEnd]
    linarith

/-- Every callback of the tail schedule starts at least one `gap` after the
running offset the tail was scheduled from (offsets accumulate, they are
never reset). -/
theorem mem_simSchedule_time_lb {gap : ℚ} (hg : 0 ≤ gap) {lines : List Line} :
    ∀ {idx : ℕ} {t0 : ℚ} {te : ℚ × ReplayEvent},
      te ∈ simSchedule gap idx t0 lines → t0 + gap ≤ te.1 := by
  induction lines with
  | nil =>
      intro idx t0 te h
      simp [simSchedule] at h
  | cons l rest ih =>
      intro idx t0 te h
      simp only [simSchedule] at h
      rcases List.mem_append.1 h with h | h
      · exact mem_lineEvents_time_lb hg h
      · have h1 := ih h
        have h2 := mul_nonneg hg
          (Nat.cast_nonneg (α := ℚ) (l.points.length - 1))
        simp only [lineEnd] at h1
        linarith

/-- Callback indices in a schedule are at least the starting line index. -/
theorem mem_simSchedule_idx_le {gap : ℚ} {lines : List Line} :
    ∀ {idx : ℕ} {t0 : ℚ} {te : ℚ × ReplayEvent},
      te ∈ simSchedule gap idx t0 lines → idx ≤ eventIdx te.2 := by
  induction lines with
  | nil =>
      intro idx t0 te h
      simp [simSchedule] at h
  | cons l rest ih =>
      intro idx t0 te h
      simp only [simSchedule] at h
      rcases List.mem_append.1 h with h | h
      · exact le_of_eq (mem_lineEvents_idx h).symm
      · exact le_trans (Nat.le_succ idx) (ih h)

/-- With a positive gap, any save closure of an earlier line is scheduled
strictly before any redraw callback of a later line, from any starting index
and offset. -/
theorem save_before_draw_aux {gap : ℚ} (hg : 0 < gap) {lines : List Line} :
    ∀ {idx : ℕ} {t0 : ℚ} {i j : ℕ} {li lj : Line} {k : ℕ} {tc tp : ℚ},
      i < j →
      (tc, ReplayEvent.save i li) ∈ simSchedule gap idx t0 lines →
      (tp, ReplayEvent.draw j lj k) ∈ simSchedule gap idx t0 lines →
      tc < tp := by
  induction lines with
  | nil =>
      intro idx t0 i j li lj k tc tp hij hc hp
      simp [simSchedule] at hc
  | cons l rest ih =>
      intro idx t0 i j li lj k tc tp hij hc hp
      simp only [simSchedule] at hc hp
      rcases List.mem_append.1 hc with hc | hc <;>
        rcases List.mem_append.1 hp with hp | hp
      · have h1 : i = idx := mem_lineEvents_idx hc
        have h2 : j = idx := mem_lineEvents_idx hp
        omega
      · have h1 : tc = lineEnd gap l t0 := save_time_of_mem hc
        have h2 := mem_simSchedule_time_lb (le_of_lt hg) hp
        subst h1
        linarith
      · have h1 : j = idx := mem_lineEvents_idx hp
        have h2 : idx + 1 ≤ i := mem_simSchedule_idx_le hc
        omega
      · exact ih hij hc hp

/-- C8: in the paced replay schedule of any history (with a positive pacing
gap), the save closure of any stroke is scheduled at a strictly earlier
delay than every incremental-redraw callback of every later stroke, because
the running offset accumulates across strokes and is never reset. -/
theorem pacedReplay_save_before_later_draws (gap : ℚ) (hg : 0 < gap)
    (lines : List Line) (i j : ℕ) (li lj : Line) (k : ℕ) (tc tp : ℚ)
    (hij : i < j)
    (hc : (tc, ReplayEvent.save i li) ∈ simSchedule gap 0 0 lines)
    (hp : (tp, ReplayEvent.draw j lj k) ∈ simSchedule gap 0 0 lines) :
    tc < tp :=
  save_before_draw_aux hg hij hc hp

/-- Witness for C8: the spec's scenario — history `[A(3 points), B(2
points)]`, gap 5.  A's save closure is scheduled at 15 and B's first redraw
at 20, and the theorem yields `15 < 20`. -/
theorem pacedReplay_save_before_later_draws_witness : (15 : ℚ) < 20 :=
  pacedReplay_save_before_later_draws 5 (by norm_num) [lineA, lineB] 0 1
    lineA lineB 2 15 20 (by omega)
    (by
      simp only [simSchedule, lineEvents]
      refine List.mem_append_left _ (List.mem_append_right _ ?_)
      rw [List.mem_singleton]
      norm_num [lineEnd, lineA])
    (by
      simp only [simSchedule, lineEvents]
      refine List.mem_append_right _
        (List.mem_append_left _ (List.mem_append_left _ ?_))
      rw [List.mem_map]
      refine ⟨0, ?_, ?_⟩
      · norm_num [lineB]
      · norm_num [lineEnd, lineA])

end Doodle
